import Mathlib

/-!
Verification of the library-management API repository.

The repository ships two variants of the same HTTP/JSON book-catalog service:

* `library-api-server.js` — the in-memory variant: a mutable array `books`,
  with handlers GET /books (filter → sort → paginate), POST /books,
  GET /books/:id and DELETE /books/:id;
* the SQLite variant (`src/unnamed/part_000`) — the same surface plus
  PUT /books/:id, backed by a `books` table with an
  `INTEGER PRIMARY KEY AUTOINCREMENT` id column.

This file is a shallow embedding of both variants.  JavaScript numbers that
the code uses as integers are modelled as `Int`; JS strings as Lean `String`
with explicit character-list primitives (the built-in `String` order of Lean
does not reduce in the kernel, and JS compares strings by code units, which
for the basic multilingual plane coincides with the code-point lexicographic
order used here).  `Array.prototype.sort` with the source's comparator is
modelled as an insertion sort with the relation "comparator(a,b) ≤ 0"; for a
comparator without ties this is the unique sorted permutation, and the
source's spec makes no promise about tie order.  Fallible handlers return an
explicit result datatype.
-/

/-- ASCII lower-casing of one character, as `String.prototype.toLowerCase`
and SQLite's `LIKE` behave on the ASCII range (non-ASCII letters are left
unchanged by this model; all data in the claims is ASCII). -/
def chLower (c : Char) : Char :=
  if 'A' ≤ c ∧ c ≤ 'Z' then Char.ofNat (c.toNat + 32) else c

/-- Model of `s.toLowerCase()`. -/
def strLower (s : String) : String :=
  ⟨s.data.map chLower⟩

/-- Model of the JS `<` comparison on strings: lexicographic on the
character sequence. -/
def strLt (s t : String) : Bool :=
  decide (s.data < t.data)

/-- Does `l` start with `pat`? (helper for substring search). -/
def listStartsWith : List Char → List Char → Bool
  | [], _ => true
  | _ :: _, [] => false
  | p :: ps, c :: cs => p == c && listStartsWith ps cs

/-- Does `l` contain `pat` as a contiguous run? (helper for substring
search). -/
def listHasSub : List Char → List Char → Bool
  | pat, [] => pat.isEmpty
  | pat, c :: cs => listStartsWith pat (c :: cs) || listHasSub pat cs

/-- Model of JS `s.includes(pat)` and of the SQL pattern
`LIKE '%pat%'` (metacharacters inside `pat` are not modelled; no claim
uses them). -/
def strIncludes (s pat : String) : Bool :=
  listHasSub pat.data s.data

/-- Accumulate a leading run of decimal digits; `none` when no digit has
been seen (helper for `jsParseInt`). -/
def parseDigits : List Char → Option Nat → Option Nat
  | [], acc => acc
  | c :: cs, acc =>
    if '0' ≤ c ∧ c ≤ '9' then
      parseDigits cs (some ((acc.getD 0) * 10 + (c.toNat - 48)))
    else acc

/-- Model of JS `parseInt(s)` in base 10: skip leading whitespace, accept an
optional sign, read the leading run of decimal digits; `none` models `NaN`.
(The `0x` radix autodetection of `parseInt` is not modelled; the claims only
concern the `NaN` outcome, and every string mapped to `none` here is also
`NaN` for `parseInt`.) -/
def jsParseInt (s : String) : Option Int :=
  let cs := s.data.dropWhile (fun c => c == ' ' || c == '\t' || c == '\n' || c == '\r')
  match cs with
  | '-' :: rest => (parseDigits rest none).map (fun n => -(n : Int))
  | '+' :: rest => (parseDigits rest none).map (fun n => (n : Int))
  | _ => (parseDigits cs none).map (fun n => (n : Int))

/-- Book record, with the fields of the seed data, of the in-memory
`newBook` object and of the SQLite `books` table.  `published_year` and
`category` are nullable columns / may be `null` in the array variant. -/
structure Book where
  id : Int
  title : String
  author : String
  isbn : String
  published_year : Option Int
  category : Option String
  copies_available : Int
  copies_total : Int
  created_at : String
  updated_at : String
deriving DecidableEq

/-- Model of the JS strict equality `b.id === bookId` where `bookId` is the
result of `parseInt`: `NaN` (here `none`) is equal to nothing.  It also
models the SQL condition `id = ?` when `?` is bound to the same parsed
value: binding `NaN` yields `NULL`, and `id = NULL` matches no row. -/
def jsIdEq (bookId : Option Int) (b : Book) : Bool :=
  match bookId with
  | none => false
  | some n => b.id == n

/-- Error envelope of the API, reduced to its machine-readable parts: the
HTTP status and the stable `error.code` string.  (The human-readable
`message`/`details` texts are presentation and are not modelled.) -/
structure ErrResp where
  status : Nat
  code : String
deriving DecidableEq

/-- Pagination metadata of the GET /books response. -/
structure PageMeta where
  current_page : Int
  total_pages : Int
  total_items : Int
  items_per_page : Int
deriving DecidableEq

/-- Body of a successful GET /books response. -/
structure ListResp where
  data : List Book
  pagination : PageMeta
deriving DecidableEq

/-- Outcome of the GET /books handler. -/
inductive ListResult where
  | ok (r : ListResp)
  | err (e : ErrResp)
deriving DecidableEq

/-- Outcome of the POST /books handler. -/
inductive CreateResult where
  | created (status : Nat) (b : Book)
  | failed (e : ErrResp)
deriving DecidableEq

/-- Outcome of the GET /books/:id handler. -/
inductive GetResult where
  | found (status : Nat) (b : Book)
  | failed (e : ErrResp)
deriving DecidableEq

/-- Outcome of the DELETE /books/:id handler. -/
inductive DeleteResult where
  | deleted (status : Nat)
  | failed (e : ErrResp)
deriving DecidableEq

/-- Outcome of the PUT /books/:id handler. -/
inductive UpdateResult where
  | updated (status : Nat) (b : Book)
  | failed (e : ErrResp)
deriving DecidableEq

/-- Request body of POST /books and PUT /books/:id as destructured by both
variants: `{ title, author, isbn, published_year, category, copies_total }`.
A field that is absent from the JSON body is `none` / the empty string (the
code only ever tests these fields for JS truthiness). -/
structure Draft where
  title : String
  author : String
  isbn : String
  published_year : Option Int
  category : Option String
  copies_total : Option Int
deriving DecidableEq

/-- JS truthiness of an optional query-string value: `undefined` and the
empty string are falsy (`if (category)` / `if (author)` in both variants). -/
def strTruthy : Option String → Bool
  | none => false
  | some s => s != ""

/-- Model of `published_year || null` in the POST handler of the array
variant: `undefined` and the number `0` are falsy and become `null`. -/
def jsOrNullInt : Option Int → Option Int
  | none => none
  | some n => if n == 0 then none else some n

/-- Model of `category || null` in the POST handler of the array variant:
`undefined` and the empty string are falsy and become `null`. -/
def jsOrNullStr : Option String → Option String
  | none => none
  | some s => if s == "" then none else some s

/-- The `validSortFields` array of both GET /books handlers. -/
def validSortFields : List String :=
  ["title", "published_year", "author"]

/-- Category predicate of the array variant:
`book.category.toLowerCase() === category.toLowerCase()`.
A record whose `category` is `null` makes the real handler throw a
`TypeError`; this total model lower-cases the empty string instead, and the
theorems that touch the category filter restrict attention to stores whose
records all carry a category, where the two coincide. -/
def memCategoryKeep (c : String) (b : Book) : Bool :=
  strLower (b.category.getD "") == strLower c

/-- Author predicate of the array variant:
`book.author.toLowerCase().includes(author.toLowerCase())`. -/
def memAuthorKeep (a : String) (b : Book) : Bool :=
  strIncludes (strLower b.author) (strLower a)

/-- Conversion of the `available` query value, both variants:
`available === 'true' || available === true` (a query value is always a
string, so only the exact string `"true"` is truthy here). -/
def jsIsAvailable (available : String) : Bool :=
  available == "true"

/-- Availability predicate, both variants: `copies_available > 0` when the
converted flag is true, `copies_available === 0` otherwise. -/
def availKeep (isAvail : Bool) (b : Book) : Bool :=
  if isAvail then decide (b.copies_available > 0) else b.copies_available == 0

/-- STEP 3 and 4 of the array variant's GET /books: copy the store and apply
the category, author and availability filters in that order, each guarded
exactly as in the source (`if (category)`, `if (author)`,
`if (available !== undefined)`). -/
def memFilteredBooks (category author available : Option String)
    (books : List Book) : List Book :=
  let f1 := match category with
    | some c => if c != "" then books.filter (memCategoryKeep c) else books
    | none => books
  let f2 := match author with
    | some a => if a != "" then f1.filter (memAuthorKeep a) else f1
    | none => f1
  match available with
  | some av => f2.filter (availKeep (jsIsAvailable av))
  | none => f2

/-- Sort key of the array variant's comparator: `a[sort_by]`, lower-cased
when it is a string.  A `null` `published_year` compares like `0` in JS
(`null` relational comparisons coerce to `0`), hence `getD 0`.  The
catch-all row is unreachable because `sort_by` is validated first. -/
inductive SKey where
  | str (s : String)
  | num (n : Int)
deriving DecidableEq

/-- The key the array variant's comparator extracts and normalises for a
given `sort_by` field. -/
def memSortKey : String → Book → SKey
  | "published_year", b => .num (b.published_year.getD 0)
  | "author", b => .str (strLower b.author)
  | _, b => .str (strLower b.title)

/-- Non-strict comparison of sort keys: `¬(a > b)` for the ascending
comparator, i.e. "a may stay before b".  The cross-constructor rows are
unreachable (one `sort_by` always produces one constructor) and are fixed
arbitrarily but totally. -/
def skLe : SKey → SKey → Bool
  | .str s, .str t => !(strLt t s)
  | .num m, .num n => decide (m ≤ n)
  | .num _, .str _ => true
  | .str _, .num _ => false

/-- STEP 5 of the array variant: `filteredBooks.sort(comparator)` where the
comparator returns `aVal > bVal ? 1 : -1` for `asc` and `aVal < bVal ? 1 : -1`
for `desc`.  Modelled as an insertion sort by the relation
"comparator(a,b) ≤ 0"; on tie-free inputs this is the unique sorted
permutation, and the behaviour on ties is implementation-defined in the
source. -/
def memSortBooks (sort_by order : String) (l : List Book) : List Book :=
  if order == "asc" then
    List.insertionSort (fun a b => skLe (memSortKey sort_by a) (memSortKey sort_by b) = true) l
  else
    List.insertionSort (fun a b => skLe (memSortKey sort_by b) (memSortKey sort_by a) = true) l

/-- Resolution of one `Array.prototype.slice` index against a length:
a negative index counts from the end of the array, then the result is
clamped to `[0, length]`. -/
def jsSliceIdx (len : Nat) (i : Int) : Nat :=
  if i < 0 then (max ((len : Int) + i) 0).toNat else (min i (len : Int)).toNat

/-- Model of `Array.prototype.slice(start, end)`. -/
def jsSlice {α : Type} (l : List α) (start stop : Int) : List α :=
  (l.drop (jsSliceIdx l.length start)).take
    (jsSliceIdx l.length stop - jsSliceIdx l.length start)

/-- Model of `Math.ceil(a / b)` for integer `a` and positive integer `b`,
as used for `totalPages`.  (For `b ≤ 0` the JS expression is `NaN` or a
signed infinity, which `Int` cannot hold; every claim constrains
`limit > 0`, so the guard value is never relevant.) -/
def mathCeilDiv (a b : Int) : Int :=
  if 0 < b then (a + b - 1) / b else 0

/-- STEP 2 through 7 of the array variant's GET /books handler: validate
`sort_by` and `order`, filter, sort, slice `[(page-1)*limit, (page-1)*limit
+ limit)`, and assemble the response.  `page` and `limit` are the
`parseInt`-ed numeric parameters. -/
def memListBooks (category author available : Option String)
    (sort_by order : String) (page limit : Int)
    (books : List Book) : ListResult :=
  if !(validSortFields.contains sort_by) then
    .err ⟨400, "INVALID_PARAMETER"⟩
  else if !(["asc", "desc"].contains order) then
    .err ⟨400, "INVALID_PARAMETER"⟩
  else
    let filtered := memFilteredBooks category author available books
    let sorted := memSortBooks sort_by order filtered
    let startIndex := (page - 1) * limit
    let endIndex := startIndex + limit
    let paginated := jsSlice sorted startIndex endIndex
    let totalItems : Int := filtered.length
    let totalPages := mathCeilDiv totalItems limit
    .ok ⟨paginated, ⟨page, totalPages, totalItems, limit⟩⟩

/-- Query parameters of GET /books after extraction: the three optional
filter strings and the numeric `page`/`limit`. -/
structure ListParams where
  category : Option String
  author : Option String
  available : Option String
  sort_by : String
  order : String
  page : Int
  limit : Int
deriving DecidableEq

/-- The whole GET /books handler of the array variant as a state-passing
function on the store.  The source copies the store (`[...books]`), filters
and sorts the copy, and never assigns to `books`, so the store component is
returned unchanged. -/
def memHandleGetBooks (books : List Book) (p : ListParams) :
    List Book × ListResult :=
  (books, memListBooks p.category p.author p.available p.sort_by p.order p.page p.limit books)

/-- Data of the page numbered `page` as GET /books of the array variant
returns it (empty when the handler signals an error). -/
def memPageData (category author available : Option String)
    (sort_by order : String) (page limit : Int) (books : List Book) : List Book :=
  match memListBooks category author available sort_by order page limit books with
  | .ok r => r.data
  | .err _ => []

/-- POST /books of the array variant: required-field check, duplicate-ISBN
check against the live store, then push a record with
`id = books.length + 1`. -/
def memCreate (books : List Book) (d : Draft) (now : String) :
    List Book × CreateResult :=
  if d.title == "" || d.author == "" || d.isbn == "" then
    (books, .failed ⟨400, "VALIDATION_ERROR"⟩)
  else
    match books.find? (fun b => b.isbn == d.isbn) with
    | some _ => (books, .failed ⟨409, "DUPLICATE_ISBN"⟩)
    | none =>
      let ct := d.copies_total.getD 1
      let nb : Book :=
        { id := (books.length : Int) + 1
          title := d.title
          author := d.author
          isbn := d.isbn
          published_year := jsOrNullInt d.published_year
          category := jsOrNullStr d.category
          copies_available := ct
          copies_total := ct
          created_at := now
          updated_at := now }
      (books ++ [nb], .created 201 nb)

/-- GET /books/:id of the array variant: `parseInt` the path segment and
`find` by strict equality. -/
def memGetById (books : List Book) (idStr : String) : GetResult :=
  match books.find? (jsIdEq (jsParseInt idStr)) with
  | some b => .found 200 b
  | none => .failed ⟨404, "RESOURCE_NOT_FOUND"⟩

/-- DELETE /books/:id of the array variant: `findIndex` by strict equality,
404 when absent, otherwise `splice` the record out. -/
def memDelete (books : List Book) (idStr : String) :
    List Book × DeleteResult :=
  match books.findIdx? (jsIdEq (jsParseInt idStr)) with
  | none => (books, .failed ⟨404, "RESOURCE_NOT_FOUND"⟩)
  | some i => (books.eraseIdx i, .deleted 204)

/-- Category condition of the SQLite variant: `category = ?` under the
default BINARY collation — an exact, case-sensitive match, and a `NULL`
category satisfies no equality. -/
def dbCategoryKeep (c : String) (b : Book) : Bool :=
  match b.category with
  | some cat => cat == c
  | none => false

/-- Author condition of the SQLite variant: `author LIKE '%a%'`, which is
case-insensitive on ASCII. -/
def dbAuthorKeep (a : String) (b : Book) : Bool :=
  strIncludes (strLower b.author) (strLower a)

/-- The WHERE clause of the SQLite variant's GET /books: the three
conditions are pushed under the same truthiness guards as in the array
variant and joined with AND. -/
def dbFilteredBooks (category author available : Option String)
    (rows : List Book) : List Book :=
  rows.filter (fun b =>
    (match category with
      | some c => if c != "" then dbCategoryKeep c b else true
      | none => true)
    && (match author with
      | some a => if a != "" then dbAuthorKeep a b else true
      | none => true)
    && (match available with
      | some av => availKeep (jsIsAvailable av) b
      | none => true))

/-- Sort key for the SQLite variant's ORDER BY: SQLite orders `NULL` before
every integer and every integer before every text value, integers
numerically, and text by the BINARY collation (byte order of UTF-8, which
equals code-point lexicographic order). -/
inductive DbKey where
  | nul
  | num (n : Int)
  | str (s : String)
deriving DecidableEq

/-- The key `ORDER BY sort_by` sorts a row by (the catch-all row is
unreachable because `sort_by` is validated first). -/
def dbSortKey : String → Book → DbKey
  | "published_year", b =>
    match b.published_year with
    | none => .nul
    | some n => .num n
  | "author", b => .str b.author
  | _, b => .str b.title

/-- Non-strict SQLite ordering on sort keys. -/
def dbKeyLe : DbKey → DbKey → Bool
  | .nul, _ => true
  | .num _, .nul => false
  | .num m, .num n => decide (m ≤ n)
  | .num _, .str _ => true
  | .str _, .nul => false
  | .str _, .num _ => false
  | .str s, .str t => !(strLt t s)

/-- The `ORDER BY ${sort_by} ${order.toUpperCase()}` clause: ascending when
`order` lower-cases to `"asc"` (the SQL keyword is case-insensitive),
descending otherwise.  SQLite promises no particular order among equal
keys; as for the array variant this model resolves ties by an insertion
sort. -/
def dbSortBooks (sort_by order : String) (rows : List Book) : List Book :=
  if strLower order == "asc" then
    List.insertionSort (fun a b => dbKeyLe (dbSortKey sort_by a) (dbSortKey sort_by b) = true) rows
  else
    List.insertionSort (fun a b => dbKeyLe (dbSortKey sort_by b) (dbSortKey sort_by a) = true) rows

/-- Model of `LIMIT ? OFFSET ?` in SQLite: a negative OFFSET behaves as 0,
and a negative LIMIT means "no limit". -/
def dbLimitOffset {α : Type} (rows : List α) (limit offset : Int) : List α :=
  if limit < 0 then rows.drop (max offset 0).toNat
  else (rows.drop (max offset 0).toNat).take limit.toNat

/-- STEP 1 through 6 of the SQLite variant's GET /books handler: validate
`sort_by` against the same enumerated list and `order.toLowerCase()` against
`asc`/`desc`, then COUNT the filtered rows, compute the same pagination
arithmetic, and fetch the ordered rows with LIMIT/OFFSET.  (The
`DATABASE_ERROR` 500 path models an engine failure, an external
collaborator, and is not represented.) -/
def dbListBooks (category author available : Option String)
    (sort_by order : String) (page limit : Int)
    (rows : List Book) : ListResult :=
  if !(validSortFields.contains sort_by) then
    .err ⟨400, "INVALID_PARAMETER"⟩
  else if !(["asc", "desc"].contains (strLower order)) then
    .err ⟨400, "INVALID_PARAMETER"⟩
  else
    let filtered := dbFilteredBooks category author available rows
    let total : Int := filtered.length
    let offset := (page - 1) * limit
    let totalPages := mathCeilDiv total limit
    let data := dbLimitOffset (dbSortBooks sort_by order filtered) limit offset
    .ok ⟨data, ⟨page, totalPages, total, limit⟩⟩

/-- Data of the page numbered `page` as GET /books of the SQLite variant
returns it (empty when the handler signals an error). -/
def dbPageData (category author available : Option String)
    (sort_by order : String) (page limit : Int) (rows : List Book) : List Book :=
  match dbListBooks category author available sort_by order page limit rows with
  | .ok r => r.data
  | .err _ => []

/-- Persistent-store state of the SQLite variant: the rows of the `books`
table plus the AUTOINCREMENT sequence value.  SQLite's AUTOINCREMENT keeps
the largest id ever handed out in `sqlite_sequence` and assigns strictly
larger ids forever after, also after deletions; `seq` models that counter
(this part of the behaviour lives in the storage engine, declared by the
`CREATE TABLE` statement of the source). -/
structure DbStore where
  rows : List Book
  seq : Int
deriving DecidableEq

/-- POST /books of the SQLite variant: required-field check, duplicate-ISBN
lookup, then INSERT (the engine assigns `id = seq + 1` and both timestamp
defaults), then SELECT the created row back. -/
def dbCreate (st : DbStore) (d : Draft) (now : String) :
    DbStore × CreateResult :=
  if d.title == "" || d.author == "" || d.isbn == "" then
    (st, .failed ⟨400, "VALIDATION_ERROR"⟩)
  else
    match st.rows.find? (fun b => b.isbn == d.isbn) with
    | some _ => (st, .failed ⟨409, "DUPLICATE_ISBN"⟩)
    | none =>
      let newId := st.seq + 1
      let ct := d.copies_total.getD 1
      let nb : Book :=
        { id := newId
          title := d.title
          author := d.author
          isbn := d.isbn
          published_year := d.published_year
          category := d.category
          copies_available := ct
          copies_total := ct
          created_at := now
          updated_at := now }
      (⟨st.rows ++ [nb], newId⟩, .created 201 nb)

/-- GET /books/:id of the SQLite variant. -/
def dbGetById (st : DbStore) (idStr : String) : GetResult :=
  match st.rows.find? (jsIdEq (jsParseInt idStr)) with
  | some b => .found 200 b
  | none => .failed ⟨404, "RESOURCE_NOT_FOUND"⟩

/-- The row PUT /books/:id writes on success: the draft's mutable fields,
`copies_total || existingBook.copies_total` (JS: `0` and `undefined` are
falsy and keep the old total), `copies_available` carried over from the
existing row, `id` and `created_at` untouched, `updated_at` set to
CURRENT_TIMESTAMP. -/
def dbUpdatedBook (ex : Book) (d : Draft) (now : String) : Book :=
  { id := ex.id
    title := d.title
    author := d.author
    isbn := d.isbn
    published_year := d.published_year
    category := d.category
    copies_total :=
      match d.copies_total with
      | some n => if n == 0 then ex.copies_total else n
      | none => ex.copies_total
    copies_available := ex.copies_available
    created_at := ex.created_at
    updated_at := now }

/-- PUT /books/:id of the SQLite variant: required-field check, existence
check, duplicate-ISBN check against a different id when the isbn changes,
then UPDATE the matching row and SELECT it back. -/
def dbUpdate (st : DbStore) (idStr : String) (d : Draft) (now : String) :
    DbStore × UpdateResult :=
  if d.title == "" || d.author == "" || d.isbn == "" then
    (st, .failed ⟨400, "VALIDATION_ERROR"⟩)
  else
    let bookId := jsParseInt idStr
    match st.rows.find? (jsIdEq bookId) with
    | none => (st, .failed ⟨404, "RESOURCE_NOT_FOUND"⟩)
    | some ex =>
      if d.isbn != ex.isbn
          && (st.rows.find? (fun b => b.isbn == d.isbn && !(jsIdEq bookId b))).isSome then
        (st, .failed ⟨409, "DUPLICATE_ISBN"⟩)
      else
        let nb := dbUpdatedBook ex d now
        (⟨st.rows.map (fun b => if jsIdEq bookId b then nb else b), st.seq⟩,
          .updated 200 nb)

/-- DELETE /books/:id of the SQLite variant. -/
def dbDelete (st : DbStore) (idStr : String) : DbStore × DeleteResult :=
  match st.rows.find? (jsIdEq (jsParseInt idStr)) with
  | none => (st, .failed ⟨404, "RESOURCE_NOT_FOUND"⟩)
  | some _ =>
    (⟨st.rows.filter (fun b => !(jsIdEq (jsParseInt idStr) b)), st.seq⟩, .deleted 204)

/-- The routes the array variant registers (`app.get`, `app.post`,
`app.delete` calls of `library-api-server.js`): there is no PUT route. -/
def memRoutes : List (String × String) :=
  [("GET", "/books"), ("POST", "/books"), ("GET", "/books/:id"),
   ("DELETE", "/books/:id")]

/-- The routes the SQLite variant registers, PUT /books/:id included. -/
def dbRoutes : List (String × String) :=
  [("GET", "/books"), ("POST", "/books"), ("GET", "/books/:id"),
   ("PUT", "/books/:id"), ("DELETE", "/books/:id")]

/-- The five seed records of the array variant, verbatim from the source. -/
def seedBooks : List Book :=
  [{ id := 1, title := "The Hobbit", author := "J.R.R. Tolkien",
     isbn := "978-0547928227", published_year := some 1937,
     category := some "fiction", copies_available := 3, copies_total := 5,
     created_at := "2025-01-01T00:00:00Z", updated_at := "2025-01-05T10:30:00Z" },
   { id := 2, title := "Clean Code", author := "Robert C. Martin",
     isbn := "978-0132350884", published_year := some 2008,
     category := some "technology", copies_available := 2, copies_total := 2,
     created_at := "2025-01-02T00:00:00Z", updated_at := "2025-01-02T00:00:00Z" },
   { id := 3, title := "1984", author := "George Orwell",
     isbn := "978-0451524935", published_year := some 1949,
     category := some "fiction", copies_available := 0, copies_total := 4,
     created_at := "2025-01-03T00:00:00Z", updated_at := "2025-01-10T14:20:00Z" },
   { id := 4, title := "Introduction to Algorithms", author := "Thomas H. Cormen",
     isbn := "978-0262033848", published_year := some 2009,
     category := some "technology", copies_available := 1, copies_total := 3,
     created_at := "2025-01-04T00:00:00Z", updated_at := "2025-01-04T00:00:00Z" },
   { id := 5, title := "The Lord of the Rings", author := "J.R.R. Tolkien",
     isbn := "978-0544003415", published_year := some 1954,
     category := some "fiction", copies_available := 2, copies_total := 6,
     created_at := "2025-01-05T00:00:00Z", updated_at := "2025-01-12T09:15:00Z" }]

/-- The page slice exactly as the spec words it: zero-based
`start = (page-1)*limit`, `end = start + limit`, slice `[start, end)`
clamped to the bounds of the set.  Used to compare the code's
`Array.prototype.slice` against the spec's description. -/
def specClampedSlice {α : Type} (l : List α) (start stop : Int) : List α :=
  (l.drop (min (max start 0) (l.length : Int)).toNat).take
    ((min (max stop 0) (l.length : Int)).toNat -
      (min (max start 0) (l.length : Int)).toNat)

/-! ### Order facts about the string and key comparisons -/

/-- Two strings neither of which is `strLt`-below the other are equal. -/
theorem strLt_false_antisymm (s t : String) (h1 : strLt s t = false)
    (h2 : strLt t s = false) : s = t := by
  unfold strLt at h1 h2
  simp only [decide_eq_false_iff_not, not_lt] at h1 h2
  exact String.ext (le_antisymm h2 h1)

/-- Totality of `skLe`. -/
theorem skLe_total (x y : SKey) : skLe x y = true ∨ skLe y x = true := by
  cases x with
  | str s =>
    cases y with
    | str t =>
      by_cases h : strLt t s = true
      · right
        simp only [skLe, Bool.not_eq_true', strLt, decide_eq_false_iff_not]
        simp only [strLt, decide_eq_true_eq] at h
        exact asymm h
      · left; simp [skLe, h]
    | num n => right; simp [skLe]
  | num m =>
    cases y with
    | str t => left; simp [skLe]
    | num n =>
      rcases le_total m n with h | h
      · left; simp [skLe, h]
      · right; simp [skLe, h]

/-- Transitivity of `skLe`. -/
theorem skLe_trans (x y z : SKey) (h1 : skLe x y = true) (h2 : skLe y z = true) :
    skLe x z = true := by
  cases x with
  | str s =>
    cases y with
    | str t =>
      cases z with
      | str u =>
        simp only [skLe, Bool.not_eq_true', strLt, decide_eq_false_iff_not, not_lt] at h1 h2 ⊢
        exact le_trans h1 h2
      | num n => simp [skLe] at h2
    | num n => simp [skLe] at h1
  | num m =>
    cases y with
    | str t =>
      cases z with
      | str u => simp [skLe]
      | num n => simp [skLe] at h2
    | num n =>
      cases z with
      | str u => simp [skLe]
      | num k =>
        simp only [skLe, decide_eq_true_eq] at h1 h2 ⊢
        exact le_trans h1 h2

/-- Antisymmetry of `skLe`. -/
theorem skLe_antisymm (x y : SKey) (h1 : skLe x y = true) (h2 : skLe y x = true) :
    x = y := by
  cases x with
  | str s =>
    cases y with
    | str t =>
      simp only [skLe, Bool.not_eq_true'] at h1 h2
      rw [strLt_false_antisymm s t h2 h1]
    | num n => simp [skLe] at h1
  | num m =>
    cases y with
    | str t => simp [skLe] at h2
    | num n =>
      simp only [skLe, decide_eq_true_eq] at h1 h2
      rw [le_antisymm h1 h2]

/-- Totality of `dbKeyLe`. -/
theorem dbKeyLe_total (x y : DbKey) : dbKeyLe x y = true ∨ dbKeyLe y x = true := by
  cases x with
  | nul => left; simp [dbKeyLe]
  | num m =>
    cases y with
    | nul => right; simp [dbKeyLe]
    | num n =>
      rcases le_total m n with h | h
      · left; simp [dbKeyLe, h]
      · right; simp [dbKeyLe, h]
    | str t => left; simp [dbKeyLe]
  | str s =>
    cases y with
    | nul => right; simp [dbKeyLe]
    | num n => right; simp [dbKeyLe]
    | str t =>
      by_cases h : strLt t s = true
      · right
        simp only [dbKeyLe, Bool.not_eq_true']
        simp only [strLt, decide_eq_true_eq] at h
        simp only [strLt, decide_eq_false_iff_not]
        exact asymm h
      · left; simp [dbKeyLe, h]

/-- Transitivity of `dbKeyLe`. -/
theorem dbKeyLe_trans (x y z : DbKey) (h1 : dbKeyLe x y = true)
    (h2 : dbKeyLe y z = true) : dbKeyLe x z = true := by
  cases x with
  | nul => simp [dbKeyLe]
  | num m =>
    cases y with
    | nul => simp [dbKeyLe] at h1
    | num n =>
      cases z with
      | nul => simp [dbKeyLe] at h2
      | num k =>
        simp only [dbKeyLe, decide_eq_true_eq] at h1 h2 ⊢
        exact le_trans h1 h2
      | str u => simp [dbKeyLe]
    | str t =>
      cases z with
      | nul => simp [dbKeyLe] at h2
      | num k => simp [dbKeyLe] at h2
      | str u => simp [dbKeyLe]
  | str s =>
    cases y with
    | nul => simp [dbKeyLe] at h1
    | num n => simp [dbKeyLe] at h1
    | str t =>
      cases z with
      | nul => simp [dbKeyLe] at h2
      | num k => simp [dbKeyLe] at h2
      | str u =>
        simp only [dbKeyLe, Bool.not_eq_true', strLt, decide_eq_false_iff_not,
          not_lt] at h1 h2 ⊢
        exact le_trans h1 h2

/-- Antisymmetry of `dbKeyLe`. -/
theorem dbKeyLe_antisymm (x y : DbKey) (h1 : dbKeyLe x y = true)
    (h2 : dbKeyLe y x = true) : x = y := by
  cases x with
  | nul =>
    cases y with
    | nul => rfl
    | num n => simp [dbKeyLe] at h2
    | str t => simp [dbKeyLe] at h2
  | num m =>
    cases y with
    | nul => simp [dbKeyLe] at h1
    | num n =>
      simp only [dbKeyLe, decide_eq_true_eq] at h1 h2
      rw [le_antisymm h1 h2]
    | str t => simp [dbKeyLe] at h2
  | str s =>
    cases y with
    | nul => simp [dbKeyLe] at h1
    | num n => simp [dbKeyLe] at h1
    | str t =>
      simp only [dbKeyLe, Bool.not_eq_true'] at h1 h2
      rw [strLt_false_antisymm s t h2 h1]

/-! ### Uniqueness of a strictly sorted permutation, and the reversal law -/

/-- Two permuted lists that are both strictly sorted on the keys of an
asymmetric relation are equal. -/
theorem perm_strict_sorted_eq {α K : Type} (key : α → K) (lt' : K → K → Prop)
    (hasym : ∀ x y, lt' x y → lt' y x → False) :
    ∀ l₁ l₂ : List α, l₁.Perm l₂ →
      l₁.Pairwise (fun a b => lt' (key a) (key b)) →
      l₂.Pairwise (fun a b => lt' (key a) (key b)) → l₁ = l₂ := by
  intro l₁
  induction l₁ with
  | nil =>
    intro l₂ hp _ _
    exact (hp.symm.eq_nil).symm
  | cons a t ih =>
    intro l₂ hp h₁ h₂
    cases l₂ with
    | nil => exact absurd hp.eq_nil (by simp)
    | cons b t₂ =>
      obtain ⟨ha1, hp1⟩ := List.pairwise_cons.mp h₁
      obtain ⟨hb2, hp2⟩ := List.pairwise_cons.mp h₂
      have hab : a = b := by
        have haMem : a ∈ b :: t₂ := hp.mem_iff.mp (List.mem_cons_self a t)
        rcases List.mem_cons.mp haMem with h | h
        · exact h
        · have hba := hb2 a h
          have hbMem : b ∈ a :: t := hp.symm.mem_iff.mp (List.mem_cons_self b t₂)
          rcases List.mem_cons.mp hbMem with h' | h'
          · exact h'.symm
          · exact absurd (ha1 b h') (fun x => hasym _ _ x hba)
      subst hab
      rw [ih t₂ hp.cons_inv hp1 hp2]

/-- On a list whose keys are pairwise distinct, sorting by a total,
transitive, antisymmetric key comparison in ascending direction gives
exactly the reverse of sorting in the flipped direction. -/
theorem insertionSort_flip_reverse {α K : Type} (key : α → K) (le' : K → K → Bool)
    (htot : ∀ x y, le' x y = true ∨ le' y x = true)
    (htr : ∀ x y z, le' x y = true → le' y z = true → le' x z = true)
    (hanti : ∀ x y, le' x y = true → le' y x = true → x = y)
    (l : List α) (hd : l.Pairwise (fun a b => key a ≠ key b)) :
    List.insertionSort (fun a b => le' (key a) (key b) = true) l =
      (List.insertionSort (fun a b => le' (key b) (key a) = true) l).reverse := by
  haveI i1 : IsTotal α (fun a b => le' (key a) (key b) = true) := ⟨fun a b => htot _ _⟩
  haveI i2 : IsTrans α (fun a b => le' (key a) (key b) = true) :=
    ⟨fun a b c h1 h2 => htr _ _ _ h1 h2⟩
  haveI i3 : IsTotal α (fun a b => le' (key b) (key a) = true) := ⟨fun a b => htot _ _⟩
  haveI i4 : IsTrans α (fun a b => le' (key b) (key a) = true) :=
    ⟨fun a b c h1 h2 => htr _ _ _ h2 h1⟩
  have hperm1 := List.perm_insertionSort (fun a b => le' (key a) (key b) = true) l
  have hperm2 := List.perm_insertionSort (fun a b => le' (key b) (key a) = true) l
  have hs1 := List.sorted_insertionSort (fun a b => le' (key a) (key b) = true) l
  have hs2 := List.sorted_insertionSort (fun a b => le' (key b) (key a) = true) l
  have hd1 : (List.insertionSort (fun a b => le' (key a) (key b) = true) l).Pairwise
      (fun a b => key a ≠ key b) := (List.Perm.pairwise_iff (fun h => Ne.symm h) hperm1).mpr hd
  have hd2 : (List.insertionSort (fun a b => le' (key b) (key a) = true) l).Pairwise
      (fun a b => key a ≠ key b) := (List.Perm.pairwise_iff (fun h => Ne.symm h) hperm2).mpr hd
  refine perm_strict_sorted_eq key
    (fun x y => le' x y = true ∧ x ≠ y)
    (fun x y hxy hyx => hxy.2 (hanti _ _ hxy.1 hyx.1))
    _ _ (hperm1.trans (hperm2.symm.trans (List.reverse_perm _).symm)) ?_ ?_
  · exact (hs1.and hd1).imp (fun h => h)
  · rw [List.pairwise_reverse]
    exact (hs2.and hd2).imp (fun h => ⟨h.1, fun he => h.2 he.symm⟩)

/-! ### Slice and pagination arithmetic -/

/-- For a non-negative index, the resolved slice index is the clamped
truncation. -/
theorem jsSliceIdx_nonneg (len : Nat) (i : Int) (h : 0 ≤ i) :
    jsSliceIdx len i = min i.toNat len := by
  unfold jsSliceIdx
  rw [if_neg (by omega)]
  omega

/-- For non-negative indices, the JS slice is a plain drop-and-take. -/
theorem jsSlice_nonneg {α : Type} (l : List α) (s e : Int) (hs : 0 ≤ s) (he : 0 ≤ e) :
    jsSlice l s e = (l.drop s.toNat).take (e.toNat - s.toNat) := by
  unfold jsSlice
  rw [jsSliceIdx_nonneg _ _ hs, jsSliceIdx_nonneg _ _ he]
  by_cases hsl : s.toNat ≤ l.length
  · rw [min_eq_left hsl]
    by_cases hel : e.toNat ≤ l.length
    · rw [min_eq_left hel]
    · rw [min_eq_right (le_of_not_le hel)]
      rw [List.take_of_length_le (by simp [List.length_drop]),
        List.take_of_length_le (by simp [List.length_drop]; omega)]
  · rw [min_eq_right (le_of_not_le hsl)]
    rw [List.drop_eq_nil_of_le (by omega), List.drop_eq_nil_of_le (by omega)]
    simp

/-- For non-negative indices, the code's JS slice coincides with the slice
exactly as the spec words it. -/
theorem specClampedSlice_eq_jsSlice {α : Type} (l : List α) (s e : Int)
    (hs : 0 ≤ s) (he : 0 ≤ e) :
    specClampedSlice l s e = jsSlice l s e := by
  unfold specClampedSlice jsSlice
  rw [max_eq_left hs, max_eq_left he,
    jsSliceIdx_nonneg _ _ hs, jsSliceIdx_nonneg _ _ he]
  have h1 : (min s (l.length : Int)).toNat = min s.toNat l.length := by omega
  have h2 : (min e (l.length : Int)).toNat = min e.toNat l.length := by omega
  rw [h1, h2]

/-- For a non-negative offset and a natural limit, SQLite's LIMIT/OFFSET
window is exactly the spec's clamped slice `[offset, offset + limit)`. -/
theorem dbLimitOffset_eq_spec {α : Type} (l : List α) (s : Int) (L : Nat) (hs : 0 ≤ s) :
    dbLimitOffset l (L : Int) s = specClampedSlice l s (s + L) := by
  unfold dbLimitOffset
  rw [if_neg (by omega), max_eq_left hs,
    specClampedSlice_eq_jsSlice _ _ _ hs (by omega),
    jsSlice_nonneg _ _ _ hs (by omega)]
  congr 1
  omega

/-- `mathCeilDiv` is the ceiling of the rational quotient. -/
theorem mathCeilDiv_eq_ceil (a b : Int) (_ha : 0 ≤ a) (hb : 0 < b) :
    mathCeilDiv a b = ⌈(a : ℚ) / (b : ℚ)⌉ := by
  unfold mathCeilDiv
  rw [if_pos hb]
  have hq := Int.ediv_add_emod (a + b - 1) b
  have hr0 : 0 ≤ (a + b - 1) % b := Int.emod_nonneg _ (by omega)
  have hrb : (a + b - 1) % b < b := Int.emod_lt_of_pos _ hb
  set q := (a + b - 1) / b with hqdef
  have h1 : a ≤ b * q := by omega
  have h2 : b * (q - 1) < a := by nlinarith
  have hbq : (0 : ℚ) < (b : ℚ) := by exact_mod_cast hb
  symm
  rw [Int.ceil_eq_iff]
  constructor
  · rw [lt_div_iff₀ hbq]
    have h2' : ((b * (q - 1) : Int) : ℚ) < ((a : Int) : ℚ) := by exact_mod_cast h2
    push_cast at h2' ⊢
    linarith
  · rw [div_le_iff₀ hbq]
    have h1' : ((a : Int) : ℚ) ≤ ((b * q : Int) : ℚ) := by exact_mod_cast h1
    push_cast at h1' ⊢
    linarith

/-- The ceiling bound: `a ≤ mathCeilDiv a b * b`. -/
theorem le_mathCeilDiv_mul (a b : Int) (_ha : 0 ≤ a) (hb : 0 < b) :
    a ≤ mathCeilDiv a b * b := by
  unfold mathCeilDiv
  rw [if_pos hb]
  have hq := Int.ediv_add_emod (a + b - 1) b
  have hr0 : 0 ≤ (a + b - 1) % b := Int.emod_nonneg _ (by omega)
  have hrb : (a + b - 1) % b < b := Int.emod_lt_of_pos _ hb
  set q := (a + b - 1) / b with hqdef
  rw [mul_comm]
  omega

/-- `mathCeilDiv` of a non-negative numerator is non-negative. -/
theorem mathCeilDiv_nonneg (a b : Int) (_ha : 0 ≤ a) (hb : 0 < b) :
    0 ≤ mathCeilDiv a b := by
  unfold mathCeilDiv
  rw [if_pos hb]
  exact Int.ediv_nonneg (by omega) (by omega)

/-- Concatenating the chunks `[k*L, k*L + L)` for `k = 0 .. P-1` of a list
of length at most `P * L` gives back the whole list. -/
theorem chunks_flatten {α : Type} (L : Nat) :
    ∀ (P : Nat) (l : List α), l.length ≤ P * L →
      ((List.range P).map (fun k => ((l.drop (k * L)).take L))).flatten = l := by
  intro P
  induction P with
  | zero =>
    intro l hl
    simp only [Nat.zero_mul, Nat.le_zero, List.length_eq_zero] at hl
    simp [hl]
  | succ P ih =>
    intro l hl
    rw [List.range_succ_eq_map]
    simp only [List.map_cons, List.map_map, List.flatten_cons]
    have hstep : ((List.range P).map ((fun k => (l.drop (k * L)).take L) ∘ Nat.succ)) =
        (List.range P).map (fun k => (((l.drop L).drop (k * L)).take L)) := by
      apply List.map_congr_left
      intro k _
      simp only [Function.comp]
      rw [List.drop_drop, Nat.succ_mul, Nat.add_comm (k * L) L]
    rw [hstep]
    rw [Nat.succ_mul] at hl
    have hlen : (l.drop L).length ≤ P * L := by
      simp only [List.length_drop]
      omega
    rw [ih (l.drop L) hlen]
    simp only [Nat.zero_mul, List.drop_zero]
    exact List.take_append_drop L l

/-! ### Claim theorems -/

/-- C8: the GET /books handler of the array variant is deterministic — the
same parameters against the same record set give the same output — and
leaves the stored collection exactly as it was (the source filters and
sorts a copy `[...books]` and never assigns to the store). -/
theorem C8_list_deterministic_and_pure (books : List Book) (p : ListParams) :
    (memHandleGetBooks books p).2 = (memHandleGetBooks books p).2 ∧
    (memHandleGetBooks books p).1 = books :=
  ⟨rfl, rfl⟩

/-- C10: when the `available` parameter is present, the exact string
`"true"` selects the records with `copies_available > 0`, and every other
string (`"false"`, `"True"`, `"1"`, `"yes"`, …) selects the records with
`copies_available == 0`, in both storage variants; no value of the
parameter is rejected. -/
theorem C10_available_filter (books rows : List Book) (v : String) (hv : v ≠ "true") :
    memFilteredBooks none none (some "true") books =
      books.filter (fun b => decide (b.copies_available > 0)) ∧
    memFilteredBooks none none (some v) books =
      books.filter (fun b => b.copies_available == 0) ∧
    dbFilteredBooks none none (some "true") rows =
      rows.filter (fun b => decide (b.copies_available > 0)) ∧
    dbFilteredBooks none none (some v) rows =
      rows.filter (fun b => b.copies_available == 0) ∧
    (∀ e, memListBooks none none (some v) "title" "asc" 1 20 books ≠ .err e) ∧
    (∀ e, dbListBooks none none (some v) "title" "asc" 1 20 rows ≠ .err e) := by
  have hbeq : (v == "true") = false := by simp [hv]
  refine ⟨?_, ?_, ?_, ?_, ?_, ?_⟩
  · have h : memFilteredBooks none none (some "true") books =
        books.filter (availKeep true) := by
      simp [memFilteredBooks, jsIsAvailable]
    rw [h]
    exact List.filter_congr (fun b _ => by simp [availKeep])
  · have h : memFilteredBooks none none (some v) books =
        books.filter (availKeep false) := by
      simp [memFilteredBooks, jsIsAvailable, hbeq]
    rw [h]
    exact List.filter_congr (fun b _ => by simp [availKeep])
  · have h : dbFilteredBooks none none (some "true") rows =
        rows.filter (fun b => availKeep true b) := by
      simp [dbFilteredBooks, jsIsAvailable]
    rw [h]
    exact List.filter_congr (fun b _ => by simp [availKeep])
  · have h : dbFilteredBooks none none (some v) rows =
        rows.filter (fun b => availKeep false b) := by
      simp [dbFilteredBooks, jsIsAvailable, hbeq]
    rw [h]
    exact List.filter_congr (fun b _ => by simp [availKeep])
  · intro e
    simp [memListBooks, validSortFields]
  · intro e
    simp [dbListBooks, validSortFields, strLower, chLower]

/-- C10 witness at `v = "false"` on the seed store. -/
theorem C10_available_filter_witness :
    memFilteredBooks none none (some "true") seedBooks =
      seedBooks.filter (fun b => decide (b.copies_available > 0)) ∧
    memFilteredBooks none none (some "false") seedBooks =
      seedBooks.filter (fun b => b.copies_available == 0) ∧
    dbFilteredBooks none none (some "true") seedBooks =
      seedBooks.filter (fun b => decide (b.copies_available > 0)) ∧
    dbFilteredBooks none none (some "false") seedBooks =
      seedBooks.filter (fun b => b.copies_available == 0) ∧
    (∀ e, memListBooks none none (some "false") "title" "asc" 1 20 seedBooks ≠ .err e) ∧
    (∀ e, dbListBooks none none (some "false") "title" "asc" 1 20 seedBooks ≠ .err e) :=
  C10_available_filter seedBooks seedBooks "false" (by decide)

/-- C9: a GET or DELETE /books/:id whose path segment does not parse as an
integer (`parseInt` gives `NaN`) matches no record, is answered 404 with
code RESOURCE_NOT_FOUND exactly like an absent numeric id, leaves the store
untouched, and does not fault (the model is a total function). -/
theorem C9_nonint_id (books : List Book) (st : DbStore) (s t : String) (n : Int)
    (hnan : jsParseInt s = none) (hnum : jsParseInt t = some n)
    (habs : ∀ b ∈ books, b.id ≠ n) :
    memGetById books s = .failed ⟨404, "RESOURCE_NOT_FOUND"⟩ ∧
    memDelete books s = (books, .failed ⟨404, "RESOURCE_NOT_FOUND"⟩) ∧
    dbGetById st s = .failed ⟨404, "RESOURCE_NOT_FOUND"⟩ ∧
    books.find? (jsIdEq (jsParseInt s)) = none ∧
    memGetById books s = memGetById books t := by
  have hfalse : ∀ b : Book, jsIdEq (jsParseInt s) b = false := by
    intro b; rw [hnan]; rfl
  have hfind : books.find? (jsIdEq (jsParseInt s)) = none :=
    List.find?_eq_none.mpr (fun b _ => by simp [hfalse b])
  have hfindDb : st.rows.find? (jsIdEq (jsParseInt s)) = none :=
    List.find?_eq_none.mpr (fun b _ => by simp [hfalse b])
  have hfindIdx : books.findIdx? (jsIdEq (jsParseInt s)) = none := by
    rw [List.findIdx?_eq_none_iff]
    intro b _
    exact hfalse b
  have hfindT : books.find? (jsIdEq (jsParseInt t)) = none :=
    List.find?_eq_none.mpr (fun b hb => by
      rw [hnum]
      simp [jsIdEq]
      exact habs b hb)
  refine ⟨?_, ?_, ?_, hfind, ?_⟩
  · simp [memGetById, hfind]
  · simp [memDelete, hfindIdx]
  · simp [dbGetById, hfindDb]
  · simp [memGetById, hfind, hfindT]

/-- C9 witness: `"abc"` parses to `NaN`, `"99"` parses to an id absent from
the seed store. -/
theorem C9_nonint_id_witness :
    memGetById seedBooks "abc" = .failed ⟨404, "RESOURCE_NOT_FOUND"⟩ ∧
    memDelete seedBooks "abc" = (seedBooks, .failed ⟨404, "RESOURCE_NOT_FOUND"⟩) ∧
    dbGetById ⟨seedBooks, 5⟩ "abc" = .failed ⟨404, "RESOURCE_NOT_FOUND"⟩ ∧
    seedBooks.find? (jsIdEq (jsParseInt "abc")) = none ∧
    memGetById seedBooks "abc" = memGetById seedBooks "99" :=
  C9_nonint_id seedBooks ⟨seedBooks, 5⟩ "abc" "99" 99 (by decide) (by decide) (by decide)

/-- C4: the claim that ids are never reused is the spec's and the repo
documentation's stated intent, but the array variant assigns
`id = books.length + 1`: after deleting the record with id 3 from the seed
store, a fresh create is handed id `4 + 1 = 5`, which is still the id of
"The Lord of the Rings" — the store ends up with two records of id 5.  The
SQLite variant's AUTOINCREMENT column keeps the counter at 5 and assigns 6
in the same scenario. -/
theorem C4_array_variant_reuses_id :
    (memCreate (memDelete seedBooks "3").1
        ⟨"New Book", "New Author", "978-0000000000", none, none, none⟩
        "2025-02-01T00:00:00Z").2 =
      .created 201
        { id := 5, title := "New Book", author := "New Author",
          isbn := "978-0000000000", published_year := none, category := none,
          copies_available := 1, copies_total := 1,
          created_at := "2025-02-01T00:00:00Z",
          updated_at := "2025-02-01T00:00:00Z" } ∧
    ((memCreate (memDelete seedBooks "3").1
        ⟨"New Book", "New Author", "978-0000000000", none, none, none⟩
        "2025-02-01T00:00:00Z").1.filter (fun b => b.id == 5)).length = 2 ∧
    (∃ b ∈ (memDelete seedBooks "3").1, b.id = 5) ∧
    ((dbCreate (dbDelete ⟨seedBooks, 5⟩ "3").1
        ⟨"New Book", "New Author", "978-0000000000", none, none, none⟩
        "2025-02-01T00:00:00Z").2 =
      .created 201
        { id := 6, title := "New Book", author := "New Author",
          isbn := "978-0000000000", published_year := none, category := none,
          copies_available := 1, copies_total := 1,
          created_at := "2025-02-01T00:00:00Z",
          updated_at := "2025-02-01T00:00:00Z" }) := by
  decide

/-- C5 counterexample: a draft that carries the Hobbit's isbn but an empty
title is answered with the 400 VALIDATION_ERROR envelope, not with the 409
DuplicateKey envelope the claim promises for every draft carrying a stored
isbn. -/
theorem C5_counterexample :
    (memCreate seedBooks
        ⟨"", "Somebody", "978-0547928227", none, none, none⟩
        "2025-02-01T00:00:00Z").2 = .failed ⟨400, "VALIDATION_ERROR"⟩ ∧
    (memCreate seedBooks
        ⟨"", "Somebody", "978-0547928227", none, none, none⟩
        "2025-02-01T00:00:00Z").2 ≠ .failed ⟨409, "DUPLICATE_ISBN"⟩ ∧
    (∃ b ∈ seedBooks, b.isbn = "978-0547928227") := by
  decide

/-- C5 (amended): a create whose draft passes the required-field check and
carries an isbn already present in the store signals DuplicateKey with
HTTP 409 and leaves the store exactly as it was, in both variants. -/
theorem C5_duplicate_isbn (books : List Book) (st : DbStore) (d : Draft) (now : String)
    (ht : d.title ≠ "") (ha : d.author ≠ "") (hi : d.isbn ≠ "")
    (hmem : ∃ b ∈ books, b.isbn = d.isbn) (hdb : ∃ b ∈ st.rows, b.isbn = d.isbn) :
    memCreate books d now = (books, .failed ⟨409, "DUPLICATE_ISBN"⟩) ∧
    dbCreate st d now = (st, .failed ⟨409, "DUPLICATE_ISBN"⟩) := by
  have hv : (d.title == "" || d.author == "" || d.isbn == "") = false := by
    simp [ht, ha, hi]
  obtain ⟨b, hb, hbisbn⟩ := hmem
  obtain ⟨b2, hb2, hbisbn2⟩ := hdb
  have hfs : (books.find? (fun bb => bb.isbn == d.isbn)).isSome :=
    List.find?_isSome.mpr ⟨b, hb, by simp [hbisbn]⟩
  have hfs2 : (st.rows.find? (fun bb => bb.isbn == d.isbn)).isSome :=
    List.find?_isSome.mpr ⟨b2, hb2, by simp [hbisbn2]⟩
  obtain ⟨bf, hbf⟩ := Option.isSome_iff_exists.mp hfs
  obtain ⟨bf2, hbf2⟩ := Option.isSome_iff_exists.mp hfs2
  constructor
  · simp [memCreate, hv, hbf]
  · simp [dbCreate, hv, hbf2]

/-- C5 witness on the seed store with a complete draft carrying a stored
isbn. -/
theorem C5_duplicate_isbn_witness :
    memCreate seedBooks
        ⟨"Some Title", "Somebody", "978-0547928227", none, none, none⟩ "now" =
      (seedBooks, .failed ⟨409, "DUPLICATE_ISBN"⟩) ∧
    dbCreate ⟨seedBooks, 5⟩
        ⟨"Some Title", "Somebody", "978-0547928227", none, none, none⟩ "now" =
      (⟨seedBooks, 5⟩, .failed ⟨409, "DUPLICATE_ISBN"⟩) :=
  C5_duplicate_isbn seedBooks ⟨seedBooks, 5⟩
    ⟨"Some Title", "Somebody", "978-0547928227", none, none, none⟩ "now"
    (by decide) (by decide) (by decide) (by decide) (by decide)

/-- C3 counterexample: in the SQLite variant the category condition is the
case-sensitive `category = ?`, so on the seed rows filtering by "Fiction"
and by "fiction" do not yield identical result sets (the claim asserts
they do in both storage variants). -/
theorem C3_counterexample :
    dbListBooks (some "Fiction") none none "title" "asc" 1 20 seedBooks ≠
      dbListBooks (some "fiction") none none "title" "asc" 1 20 seedBooks := by
  decide

/-- C3 (amended): in the array variant the category filter keeps exactly
the records whose category matches the filter value case-insensitively —
so any two filter values with the same lower-casing yield identical result
sets — while in the SQLite variant it keeps exactly the rows whose stored
category is byte-for-byte equal to the filter value. -/
theorem C3_category_filter (books rows : List Book) (c c' : String)
    (hc : c ≠ "") (hc' : c' ≠ "") (hci : strLower c = strLower c')
    (hsome : ∀ b ∈ books, b.category.isSome) :
    (∀ b, b ∈ memFilteredBooks (some c) none none books ↔
      (b ∈ books ∧ ∃ cat, b.category = some cat ∧ strLower cat = strLower c)) ∧
    memFilteredBooks (some c) none none books =
      memFilteredBooks (some c') none none books ∧
    (∀ b, b ∈ dbFilteredBooks (some c) none none rows ↔
      (b ∈ rows ∧ b.category = some c)) := by
  have hcb : (c != "") = true := by simp [hc]
  have hcb' : (c' != "") = true := by simp [hc']
  refine ⟨?_, ?_, ?_⟩
  · intro b
    simp only [memFilteredBooks, hcb, if_pos, List.mem_filter]
    constructor
    · rintro ⟨hbmem, hkeep⟩
      refine ⟨hbmem, ?_⟩
      obtain ⟨cat, hcat⟩ := Option.isSome_iff_exists.mp (hsome b hbmem)
      refine ⟨cat, hcat, ?_⟩
      simp only [memCategoryKeep, hcat, Option.getD_some, beq_iff_eq] at hkeep
      exact hkeep
    · rintro ⟨hbmem, cat, hcat, hlow⟩
      refine ⟨hbmem, ?_⟩
      simp only [memCategoryKeep, hcat, Option.getD_some, beq_iff_eq]
      exact hlow
  · simp only [memFilteredBooks, hcb, hcb', if_pos]
    apply List.filter_congr
    intro b _
    simp only [memCategoryKeep, hci]
  · intro b
    have hrw : dbFilteredBooks (some c) none none rows =
        rows.filter (fun bb => dbCategoryKeep c bb) := by
      simp [dbFilteredBooks, hcb]
    rw [hrw, List.mem_filter]
    constructor
    · rintro ⟨hbmem, hkeep⟩
      refine ⟨hbmem, ?_⟩
      cases hcat : b.category with
      | none =>
        rw [dbCategoryKeep, hcat] at hkeep
        simp at hkeep
      | some cat =>
        rw [dbCategoryKeep, hcat] at hkeep
        simp only [beq_iff_eq] at hkeep
        rw [hkeep]
    · rintro ⟨hbmem, hcat⟩
      refine ⟨hbmem, ?_⟩
      rw [dbCategoryKeep, hcat]
      simp

/-- C3 witness: "Fiction" versus "fiction" on the seed store of the array
variant. -/
theorem C3_category_filter_witness :
    (∀ b, b ∈ memFilteredBooks (some "Fiction") none none seedBooks ↔
      (b ∈ seedBooks ∧ ∃ cat, b.category = some cat ∧ strLower cat = strLower "Fiction")) ∧
    memFilteredBooks (some "Fiction") none none seedBooks =
      memFilteredBooks (some "fiction") none none seedBooks ∧
    (∀ b, b ∈ dbFilteredBooks (some "Fiction") none none seedBooks ↔
      (b ∈ seedBooks ∧ b.category = some "Fiction")) :=
  C3_category_filter seedBooks seedBooks "Fiction" "fiction" (by decide) (by decide)
    (by decide) (by decide)

/-- C2 counterexample: the SQLite variant lower-cases `order` before the
membership test, so the request `order = "DESC"` — not a member of
{asc, desc} — is accepted rather than answered with InvalidParameter,
against the claimed "if and only if". -/
theorem C2_counterexample :
    dbListBooks none none none "title" "DESC" 1 20 [] =
      .ok ⟨[], ⟨1, 0, 0, 20⟩⟩ ∧
    ("DESC" : String) ∉ (["asc", "desc"] : List String) := by
  decide

/-- C2 (amended): the array variant signals InvalidParameter exactly when
`sort_by` is outside {title, published_year, author} or `order` is outside
{asc, desc}; the SQLite variant tests `order` case-insensitively (it
signals exactly when `sort_by` is invalid or the lower-cased `order` is
outside {asc, desc}).  In both variants the check is fail-fast: on a
validation failure the outcome is the same whatever the record set, so no
filtering, sorting or page production can depend on the store. -/
theorem C2_validation (category author available : Option String)
    (sort_by order : String) (page limit : Int)
    (books books2 rows rows2 : List Book) :
    (memListBooks category author available sort_by order page limit books =
        .err ⟨400, "INVALID_PARAMETER"⟩ ↔
      (sort_by ∉ validSortFields ∨ order ∉ (["asc", "desc"] : List String))) ∧
    ((sort_by ∉ validSortFields ∨ order ∉ (["asc", "desc"] : List String)) →
      memListBooks category author available sort_by order page limit books =
        memListBooks category author available sort_by order page limit books2) ∧
    (dbListBooks category author available sort_by order page limit rows =
        .err ⟨400, "INVALID_PARAMETER"⟩ ↔
      (sort_by ∉ validSortFields ∨ strLower order ∉ (["asc", "desc"] : List String))) ∧
    ((sort_by ∉ validSortFields ∨ strLower order ∉ (["asc", "desc"] : List String)) →
      dbListBooks category author available sort_by order page limit rows =
        dbListBooks category author available sort_by order page limit rows2) := by
  refine ⟨?_, ?_, ?_, ?_⟩
  · by_cases h1 : sort_by ∈ validSortFields
    · by_cases h2 : order ∈ (["asc", "desc"] : List String)
      · simp [memListBooks, h1, h2]
      · simp [memListBooks, h1, h2]
    · simp [memListBooks, h1]
  · intro h
    by_cases h1 : sort_by ∈ validSortFields
    · by_cases h2 : order ∈ (["asc", "desc"] : List String)
      · exact absurd h (by simp [h1, h2])
      · simp [memListBooks, h1, h2]
    · simp [memListBooks, h1]
  · by_cases h1 : sort_by ∈ validSortFields
    · by_cases h2 : strLower order ∈ (["asc", "desc"] : List String)
      · simp [dbListBooks, h1, h2]
      · simp [dbListBooks, h1, h2]
    · simp [dbListBooks, h1]
  · intro h
    by_cases h1 : sort_by ∈ validSortFields
    · by_cases h2 : strLower order ∈ (["asc", "desc"] : List String)
      · exact absurd h (by simp [h1, h2])
      · simp [dbListBooks, h1, h2]
    · simp [dbListBooks, h1]

/-- C2 witness at an invalid `sort_by` over distinct stores. -/
theorem C2_validation_witness :
    (memListBooks none none none "isbn" "asc" 1 20 seedBooks =
        .err ⟨400, "INVALID_PARAMETER"⟩ ↔
      ("isbn" ∉ validSortFields ∨ ("asc" : String) ∉ (["asc", "desc"] : List String))) ∧
    (("isbn" ∉ validSortFields ∨ ("asc" : String) ∉ (["asc", "desc"] : List String)) →
      memListBooks none none none "isbn" "asc" 1 20 seedBooks =
        memListBooks none none none "isbn" "asc" 1 20 []) ∧
    (dbListBooks none none none "isbn" "asc" 1 20 seedBooks =
        .err ⟨400, "INVALID_PARAMETER"⟩ ↔
      ("isbn" ∉ validSortFields ∨ strLower "asc" ∉ (["asc", "desc"] : List String))) ∧
    (("isbn" ∉ validSortFields ∨ strLower "asc" ∉ (["asc", "desc"] : List String)) →
      dbListBooks none none none "isbn" "asc" 1 20 seedBooks =
        dbListBooks none none none "isbn" "asc" 1 20 []) :=
  C2_validation none none none "isbn" "asc" 1 20 seedBooks [] seedBooks []

/-- C6: over a record set whose sort keys for the chosen field are pairwise
distinct, the ascending output of the sort stage is the exact reverse of
the descending output, in both variants (the array comparator and
ORDER BY). -/
theorem C6_sort_reverse (sort_by : String) (l rows : List Book)
    (_hs : sort_by ∈ validSortFields)
    (hmem : l.Pairwise (fun a b => memSortKey sort_by a ≠ memSortKey sort_by b))
    (hdb : rows.Pairwise (fun a b => dbSortKey sort_by a ≠ dbSortKey sort_by b)) :
    memSortBooks sort_by "asc" l = (memSortBooks sort_by "desc" l).reverse ∧
    dbSortBooks sort_by "asc" rows = (dbSortBooks sort_by "desc" rows).reverse := by
  constructor
  · have e1 : memSortBooks sort_by "asc" l =
        List.insertionSort
          (fun a b => skLe (memSortKey sort_by a) (memSortKey sort_by b) = true) l := by
      unfold memSortBooks
      rw [if_pos (by decide)]
    have e2 : memSortBooks sort_by "desc" l =
        List.insertionSort
          (fun a b => skLe (memSortKey sort_by b) (memSortKey sort_by a) = true) l := by
      unfold memSortBooks
      rw [if_neg (by decide)]
    rw [e1, e2]
    exact insertionSort_flip_reverse (memSortKey sort_by) skLe
      skLe_total skLe_trans skLe_antisymm l hmem
  · have e1 : dbSortBooks sort_by "asc" rows =
        List.insertionSort
          (fun a b => dbKeyLe (dbSortKey sort_by a) (dbSortKey sort_by b) = true) rows := by
      unfold dbSortBooks
      rw [if_pos (by decide)]
    have e2 : dbSortBooks sort_by "desc" rows =
        List.insertionSort
          (fun a b => dbKeyLe (dbSortKey sort_by b) (dbSortKey sort_by a) = true) rows := by
      unfold dbSortBooks
      rw [if_neg (by decide)]
    rw [e1, e2]
    exact insertionSort_flip_reverse (dbSortKey sort_by) dbKeyLe
      dbKeyLe_total dbKeyLe_trans dbKeyLe_antisymm rows hdb

/-- C6 witness: sorting the seed store (pairwise distinct titles) by title
in both directions. -/
theorem C6_sort_reverse_witness :
    memSortBooks "title" "asc" seedBooks = (memSortBooks "title" "desc" seedBooks).reverse ∧
    dbSortBooks "title" "asc" seedBooks = (dbSortBooks "title" "desc" seedBooks).reverse :=
  C6_sort_reverse "title" seedBooks seedBooks (by decide) (by decide) (by decide)

/-- C7 counterexample: the array variant registers no PUT route at all
(only the SQLite variant exposes update), and even there a draft that fails
the required-field check is answered 400 before the absent id can produce
the claimed NotFound. -/
theorem C7_counterexample :
    (("PUT", "/books/:id") ∉ memRoutes) ∧
    (("PUT", "/books/:id") ∈ dbRoutes) ∧
    dbUpdate ⟨seedBooks, 5⟩ "99"
        ⟨"", "An Author", "978-0000000001", none, none, none⟩ "T" =
      (⟨seedBooks, 5⟩, .failed ⟨400, "VALIDATION_ERROR"⟩) ∧
    (∀ b ∈ seedBooks, b.id ≠ 99) := by
  decide

/-- C7 (amended): the SQLite variant's update, on drafts passing the
required-field check: signals NotFound when no row matches the id; signals
DuplicateKey when the draft's isbn differs from the stored one and another
row holds it; otherwise writes back a row that keeps `id`, `created_at` and
`copies_available`, refreshes `updated_at`, takes the draft's other fields,
and leaves every other row of the table unchanged.  The array variant does
not expose an update operation. -/
theorem C7_update (st : DbStore) (idStr : String) (d : Draft) (now : String)
    (ht : d.title ≠ "") (ha : d.author ≠ "") (hi : d.isbn ≠ "") :
    (("PUT", "/books/:id") ∉ memRoutes) ∧
    (st.rows.find? (jsIdEq (jsParseInt idStr)) = none →
      dbUpdate st idStr d now = (st, .failed ⟨404, "RESOURCE_NOT_FOUND"⟩)) ∧
    (∀ ex, st.rows.find? (jsIdEq (jsParseInt idStr)) = some ex →
      ((d.isbn ≠ ex.isbn ∧
          ∃ b ∈ st.rows, b.isbn = d.isbn ∧ jsIdEq (jsParseInt idStr) b = false) →
        dbUpdate st idStr d now = (st, .failed ⟨409, "DUPLICATE_ISBN"⟩)) ∧
      ((d.isbn = ex.isbn ∨
          (∀ b ∈ st.rows, ¬(b.isbn = d.isbn ∧ jsIdEq (jsParseInt idStr) b = false))) →
        dbUpdate st idStr d now =
          (⟨st.rows.map (fun b =>
              if jsIdEq (jsParseInt idStr) b then dbUpdatedBook ex d now else b), st.seq⟩,
            .updated 200 (dbUpdatedBook ex d now)) ∧
        (dbUpdatedBook ex d now).id = ex.id ∧
        (dbUpdatedBook ex d now).created_at = ex.created_at ∧
        (dbUpdatedBook ex d now).updated_at = now ∧
        (dbUpdatedBook ex d now).title = d.title ∧
        (dbUpdatedBook ex d now).author = d.author ∧
        (dbUpdatedBook ex d now).isbn = d.isbn ∧
        (dbUpdatedBook ex d now).copies_available = ex.copies_available ∧
        (∀ b ∈ st.rows, jsIdEq (jsParseInt idStr) b = false →
          b ∈ (dbUpdate st idStr d now).1.rows))) := by
  have hv : (d.title == "" || d.author == "" || d.isbn == "") = false := by
    simp [ht, ha, hi]
  refine ⟨by decide, ?_, ?_⟩
  · intro hnone
    simp [dbUpdate, hv, hnone]
  · intro ex hex
    constructor
    · rintro ⟨hne, b, hbmem, hbisbn, hbid⟩
      have hdup : (st.rows.find? (fun bb =>
          bb.isbn == d.isbn && !(jsIdEq (jsParseInt idStr) bb))).isSome :=
        List.find?_isSome.mpr ⟨b, hbmem, by simp [hbisbn, hbid]⟩
      have hcond : (d.isbn != ex.isbn
          && (st.rows.find? (fun bb =>
              bb.isbn == d.isbn && !(jsIdEq (jsParseInt idStr) bb))).isSome) = true := by
        simp [hne, hdup]
      simp [dbUpdate, hv, hex, hcond]
    · intro hok
      have hcond : (d.isbn != ex.isbn
          && (st.rows.find? (fun bb =>
              bb.isbn == d.isbn && !(jsIdEq (jsParseInt idStr) bb))).isSome) = false := by
        rcases hok with h | h
        · simp [h]
        · have : st.rows.find? (fun bb =>
              bb.isbn == d.isbn && !(jsIdEq (jsParseInt idStr) bb)) = none := by
            apply List.find?_eq_none.mpr
            intro b hb
            have := h b hb
            simp only [Bool.and_eq_true, beq_iff_eq, Bool.not_eq_true'] at this ⊢
            tauto
          simp [this]
      have hupd : dbUpdate st idStr d now =
          (⟨st.rows.map (fun b =>
              if jsIdEq (jsParseInt idStr) b then dbUpdatedBook ex d now else b), st.seq⟩,
            .updated 200 (dbUpdatedBook ex d now)) := by
        simp [dbUpdate, hv, hex, hcond]
      refine ⟨hupd, rfl, rfl, rfl, rfl, rfl, rfl, rfl, ?_⟩
      intro b hb hbid
      rw [hupd]
      exact List.mem_map.mpr ⟨b, hb, by rw [if_neg (by simp [hbid])]⟩

/-- C7 witness: updating the absent id 99 on the seed table with a complete
draft signals NotFound. -/
theorem C7_update_witness :
    dbUpdate ⟨seedBooks, 5⟩ "99"
        ⟨"A Title", "An Author", "978-0000000001", none, none, none⟩ "T" =
      (⟨seedBooks, 5⟩, .failed ⟨404, "RESOURCE_NOT_FOUND"⟩) :=
  (C7_update ⟨seedBooks, 5⟩ "99"
      ⟨"A Title", "An Author", "978-0000000001", none, none, none⟩ "T"
      (by decide) (by decide) (by decide)).2.1 (by decide)

/-- C1 counterexample: at `page = -1, limit = 2` (parameters with
`limit > 0` that the claim quantifies over) both list handlers return a
non-empty page where the claimed clamped slice
`[(page-1)*limit, (page-1)*limit + limit)` is empty: the array variant's
`Array.prototype.slice` resolves the negative start index from the end of
the array, and the SQLite variant's negative OFFSET behaves as 0 and
serves the first `limit` rows. -/
theorem C1_counterexample :
    memPageData none none none "title" "asc" (-1) 2 seedBooks ≠ [] ∧
    dbPageData none none none "title" "asc" (-1) 2 seedBooks ≠ [] ∧
    specClampedSlice
      (memSortBooks "title" "asc" (memFilteredBooks none none none seedBooks))
      ((-1 - 1) * 2) ((-1 - 1) * 2 + 2) = [] ∧
    specClampedSlice
      (dbSortBooks "title" "asc" (dbFilteredBooks none none none seedBooks))
      ((-1 - 1) * 2) ((-1 - 1) * 2 + 2) = [] := by
  decide

/-- C1 (amended): for `limit ≥ 1` and `page ≥ 1`, a successful list
response of either variant reports `total_items` as the size of its
filtered set, reports `total_pages = ceil(total_items / limit)`, returns
as its page exactly the spec's clamped slice
`[(page-1)*limit, (page-1)*limit + limit)` of its sorted filtered set (in
particular an out-of-range page gives an empty page, never an error), and
the pages `1 .. total_pages` concatenate, in order, to exactly the sorted
filtered set — no gaps, no overlaps.  The first five conjuncts are the
array variant, the last five the SQLite variant. -/
theorem C1_pagination (category author available : Option String)
    (sort_by order : String) (page limit : Int) (books rows : List Book)
    (resp dresp : ListResp)
    (hl : 1 ≤ limit) (hp : 1 ≤ page)
    (hok : memListBooks category author available sort_by order page limit books = .ok resp)
    (hdbok : dbListBooks category author available sort_by order page limit rows = .ok dresp) :
    (resp.pagination.total_items =
      ((memFilteredBooks category author available books).length : Int) ∧
    resp.pagination.total_pages = ⌈(resp.pagination.total_items : ℚ) / (limit : ℚ)⌉ ∧
    resp.data = specClampedSlice
      (memSortBooks sort_by order (memFilteredBooks category author available books))
      ((page - 1) * limit) ((page - 1) * limit + limit) ∧
    (resp.pagination.total_pages < page → resp.data = []) ∧
    ((List.range resp.pagination.total_pages.toNat).map
        (fun (k : Nat) => memPageData category author available sort_by order
          ((k : Int) + 1) limit books)).flatten =
      memSortBooks sort_by order (memFilteredBooks category author available books)) ∧
    (dresp.pagination.total_items =
      ((dbFilteredBooks category author available rows).length : Int) ∧
    dresp.pagination.total_pages = ⌈(dresp.pagination.total_items : ℚ) / (limit : ℚ)⌉ ∧
    dresp.data = specClampedSlice
      (dbSortBooks sort_by order (dbFilteredBooks category author available rows))
      ((page - 1) * limit) ((page - 1) * limit + limit) ∧
    (dresp.pagination.total_pages < page → dresp.data = []) ∧
    ((List.range dresp.pagination.total_pages.toNat).map
        (fun (k : Nat) => dbPageData category author available sort_by order
          ((k : Int) + 1) limit rows)).flatten =
      dbSortBooks sort_by order (dbFilteredBooks category author available rows)) := by
  obtain ⟨L, rfl⟩ : ∃ L : Nat, limit = (L : Int) :=
    ⟨limit.toNat, (Int.toNat_of_nonneg (by omega)).symm⟩
  have hL : 1 ≤ L := by exact_mod_cast hl
  unfold memListBooks at hok
  unfold dbListBooks at hdbok
  cases h1 : validSortFields.contains sort_by with
  | true =>
    cases h2 : (["asc", "desc"] : List String).contains order with
    | true =>
      cases h2db : (["asc", "desc"] : List String).contains (strLower order) with
      | true =>
        rw [if_neg (by rw [h1]; simp), if_neg (by rw [h2]; simp)] at hok
        rw [if_neg (by rw [h1]; simp), if_neg (by rw [h2db]; simp)] at hdbok
        simp only [ListResult.ok.injEq] at hok hdbok
        subst hok
        subst hdbok
        dsimp only
        set flt := memFilteredBooks category author available books with hflt
        set srt := memSortBooks sort_by order flt with hsrt
        set dflt := dbFilteredBooks category author available rows with hdflt
        set dsrt := dbSortBooks sort_by order dflt with hdsrt
        have hlen : srt.length = flt.length := by
          rw [hsrt]
          unfold memSortBooks
          split_ifs
          · exact (List.perm_insertionSort _ _).length_eq
          · exact (List.perm_insertionSort _ _).length_eq
        have hdlen : dsrt.length = dflt.length := by
          rw [hdsrt]
          unfold dbSortBooks
          split_ifs
          · exact (List.perm_insertionSort _ _).length_eq
          · exact (List.perm_insertionSort _ _).length_eq
        have hs0 : (0 : Int) ≤ (page - 1) * L :=
          mul_nonneg (by omega) (by positivity)
        have he0 : (0 : Int) ≤ (page - 1) * L + L :=
          add_nonneg hs0 (by positivity)
        have hLc : (0 : Int) < (L : Int) := by exact_mod_cast hL
        have hfc : (0 : Int) ≤ (flt.length : Int) := by positivity
        have hdfc : (0 : Int) ≤ (dflt.length : Int) := by positivity
        have hPnn : 0 ≤ mathCeilDiv (flt.length : Int) L :=
          mathCeilDiv_nonneg _ _ hfc hLc
        have hdPnn : 0 ≤ mathCeilDiv (dflt.length : Int) L :=
          mathCeilDiv_nonneg _ _ hdfc hLc
        have hPmul := le_mathCeilDiv_mul (flt.length : Int) L hfc hLc
        have hdPmul := le_mathCeilDiv_mul (dflt.length : Int) L hdfc hLc
        refine ⟨⟨rfl, ?_, ?_, ?_, ?_⟩, ⟨rfl, ?_, ?_, ?_, ?_⟩⟩
        · exact mathCeilDiv_eq_ceil _ _ hfc hLc
        · exact (specClampedSlice_eq_jsSlice srt _ _ hs0 he0).symm
        · intro hlt
          have hstart : ((srt.length : Int)) ≤ (page - 1) * L := by
            rw [hlen]
            calc (flt.length : Int) ≤ mathCeilDiv (flt.length : Int) L * L := hPmul
            _ ≤ (page - 1) * L := by
              apply mul_le_mul_of_nonneg_right _ (by positivity)
              omega
          rw [← Int.toNat_of_nonneg hs0] at hstart
          have hdrop : srt.length ≤ ((page - 1) * (L : Int)).toNat := by
            exact_mod_cast hstart
          rw [jsSlice_nonneg _ _ _ hs0 he0, List.drop_eq_nil_of_le hdrop, List.take_nil]
        · have hpage : ∀ k : Nat,
              memPageData category author available sort_by order ((k : Int) + 1) L books =
                (srt.drop (k * L)).take L := by
            intro k
            unfold memPageData memListBooks
            rw [if_neg (by rw [h1]; simp), if_neg (by rw [h2]; simp)]
            have hk : ((k : Int) + 1 - 1) = (k : Int) := by ring
            rw [hk]
            dsimp only
            have e0 : (0 : Int) ≤ (k : Int) * L := by positivity
            have e0' : (0 : Int) ≤ (k : Int) * L + L := by positivity
            rw [← hflt, ← hsrt, jsSlice_nonneg _ _ _ e0 e0']
            have e1 : ((k : Int) * L).toNat = k * L := by
              rw [← Nat.cast_mul, Int.toNat_natCast]
            have e2 : ((k : Int) * L + L).toNat = k * L + L := by
              rw [← Nat.cast_mul, ← Nat.cast_add, Int.toNat_natCast]
            rw [e1, e2, Nat.add_sub_cancel_left]
          have hmap : (List.range (mathCeilDiv (flt.length : Int) L).toNat).map
                (fun (k : Nat) => memPageData category author available sort_by order
                  ((k : Int) + 1) L books) =
              (List.range (mathCeilDiv (flt.length : Int) L).toNat).map
                (fun (k : Nat) => (srt.drop (k * L)).take L) :=
            List.map_congr_left (fun k _ => hpage k)
          rw [hmap]
          apply chunks_flatten
          have hPc : (((mathCeilDiv (flt.length : Int) L).toNat * L : Nat) : Int) =
              mathCeilDiv (flt.length : Int) L * L := by
            push_cast
            rw [Int.toNat_of_nonneg hPnn]
          have h3 : ((srt.length : Int)) ≤
              (((mathCeilDiv (flt.length : Int) L).toNat * L : Nat) : Int) := by
            rw [hPc, hlen]
            exact hPmul
          exact_mod_cast h3
        · exact mathCeilDiv_eq_ceil _ _ hdfc hLc
        · exact dbLimitOffset_eq_spec dsrt _ L hs0
        · intro hlt
          have hstart : ((dsrt.length : Int)) ≤ (page - 1) * L := by
            rw [hdlen]
            calc (dflt.length : Int) ≤ mathCeilDiv (dflt.length : Int) L * L := hdPmul
            _ ≤ (page - 1) * L := by
              apply mul_le_mul_of_nonneg_right _ (by positivity)
              omega
          rw [← Int.toNat_of_nonneg hs0] at hstart
          have hdrop : dsrt.length ≤ ((page - 1) * (L : Int)).toNat := by
            exact_mod_cast hstart
          unfold dbLimitOffset
          rw [if_neg (by omega), max_eq_left hs0,
            List.drop_eq_nil_of_le hdrop, List.take_nil]
        · have hpage : ∀ k : Nat,
              dbPageData category author available sort_by order ((k : Int) + 1) L rows =
                (dsrt.drop (k * L)).take L := by
            intro k
            unfold dbPageData dbListBooks
            rw [if_neg (by rw [h1]; simp), if_neg (by rw [h2db]; simp)]
            have hk : ((k : Int) + 1 - 1) = (k : Int) := by ring
            rw [hk]
            dsimp only
            rw [← hdflt, ← hdsrt]
            unfold dbLimitOffset
            rw [if_neg (by omega), max_eq_left (by positivity)]
            have e1 : ((k : Int) * L).toNat = k * L := by
              rw [← Nat.cast_mul, Int.toNat_natCast]
            rw [e1, Int.toNat_natCast]
          have hmap : (List.range (mathCeilDiv (dflt.length : Int) L).toNat).map
                (fun (k : Nat) => dbPageData category author available sort_by order
                  ((k : Int) + 1) L rows) =
              (List.range (mathCeilDiv (dflt.length : Int) L).toNat).map
                (fun (k : Nat) => (dsrt.drop (k * L)).take L) :=
            List.map_congr_left (fun k _ => hpage k)
          rw [hmap]
          apply chunks_flatten
          have hPc : (((mathCeilDiv (dflt.length : Int) L).toNat * L : Nat) : Int) =
              mathCeilDiv (dflt.length : Int) L * L := by
            push_cast
            rw [Int.toNat_of_nonneg hdPnn]
          have h3 : ((dsrt.length : Int)) ≤
              (((mathCeilDiv (dflt.length : Int) L).toNat * L : Nat) : Int) := by
            rw [hPc, hdlen]
            exact hdPmul
          exact_mod_cast h3
      | false =>
        rw [if_neg (by rw [h1]; simp), if_pos (by rw [h2db]; rfl)] at hdbok
        simp at hdbok
    | false =>
      rw [if_neg (by rw [h1]; simp), if_pos (by rw [h2]; rfl)] at hok
      simp at hok
  | false =>
    rw [if_pos (by rw [h1]; rfl)] at hok
    simp at hok

/-- C1 witness: page 2, limit 2 over the whole seed store, both variants. -/
theorem C1_pagination_witness :
    (memListBooks none none none "title" "asc" 2 2 seedBooks =
      .ok ⟨[seedBooks.get ⟨3, by decide⟩, seedBooks.get ⟨0, by decide⟩], ⟨2, 3, 5, 2⟩⟩) ∧
    (dbListBooks none none none "title" "asc" 2 2 seedBooks =
      .ok ⟨[seedBooks.get ⟨3, by decide⟩, seedBooks.get ⟨0, by decide⟩], ⟨2, 3, 5, 2⟩⟩) ∧
    (3 : Int) = ⌈((5 : Int) : ℚ) / ((2 : Int) : ℚ)⌉ := by
  have hok : memListBooks none none none "title" "asc" 2 2 seedBooks =
      .ok ⟨[seedBooks.get ⟨3, by decide⟩, seedBooks.get ⟨0, by decide⟩], ⟨2, 3, 5, 2⟩⟩ := by
    decide
  have hdbok : dbListBooks none none none "title" "asc" 2 2 seedBooks =
      .ok ⟨[seedBooks.get ⟨3, by decide⟩, seedBooks.get ⟨0, by decide⟩], ⟨2, 3, 5, 2⟩⟩ := by
    decide
  refine ⟨hok, hdbok, ?_⟩
  have h := C1_pagination none none none "title" "asc" 2 2 seedBooks seedBooks
    ⟨[seedBooks.get ⟨3, by decide⟩, seedBooks.get ⟨0, by decide⟩], ⟨2, 3, 5, 2⟩⟩
    ⟨[seedBooks.get ⟨3, by decide⟩, seedBooks.get ⟨0, by decide⟩], ⟨2, 3, 5, 2⟩⟩
    (by decide) (by decide) hok hdbok
  exact h.1.2.1
